import Mathlib

/-!
# Verification of the hyperbyte-plot terminal dashboard

A shallow embedding, in Lean 4, of the core of the `hyperbyte-plot`
(a.k.a. promviz) Go program: the shared time-series data types
(`internal/backend/types.go`), the panel/focus/scroll state machine and the
update path of the terminal UI (`internal/ui/ui.go`), the configuration
validation and backend factory (`internal/config/config.go`,
`internal/app/app.go`), and a small interleaving model of the orchestrator's
shutdown path (`internal/app/app.go`).

Conventions of the embedding:
* Go `int` fields become `Int`; Go `%` on `Int` is truncated remainder, so it
  is modelled with `Int.tmod`.
* `time.Time` values are only ever compared (`Before`/`After`) or carried
  around, so a timestamp is modelled as an `Int` with `Before` = `<` and
  `After` = `>`.
* Go pointers that may be `nil` (`*TimeSeriesResult`, `error`) become
  `Option`; a `nil`-pointer dereference (a Go panic) is modelled by a
  function returning `none` at top level.
* The tview/tcell/asciigraph drawing primitives are external collaborators;
  a panel's visual state is modelled by the data that the code hands to
  them (its text content), not by their internals.
-/

namespace Plot

/-! ## Data model — `internal/backend/types.go` -/

/-- `backend.DataPoint`: a single metric sample.  `Timestamp time.Time` is
modelled as an `Int` instant (`Before` = `<`, `After` = `>`); `Value float64`
is carried opaquely. -/
structure DataPoint where
  timestamp : Int
  value : Float
deriving Repr

/-- `backend.TimeSeriesResult`: a sequence of points, ordered by arrival
(not guaranteed sorted by timestamp). -/
structure TimeSeriesResult where
  points : List DataPoint
deriving Repr

/-- `backend.Query`: a named backend-specific query expression. -/
structure Query where
  name : String
  expr : String
deriving Repr

/-! ## UI state — `internal/ui/ui.go` -/

/-- `ui.QueryHistory`: per-query display state.  `TimeSeries` is a
`*backend.TimeSeriesResult` (so `none` models a `nil` pointer), `LastError`
is a Go `error` modelled as an optional message string. -/
structure QueryHistory where
  name : String
  timeSeries : Option TimeSeriesResult
  lastError : Option String
deriving Repr

/-- The text content of one panel's `tview.TextView`, i.e. the data the UI
code hands to the drawing library via `SetText`.  A successful render shows
the current value, the span and the plotted curve of the timestamp-sorted
copy of the points, so its content is determined by the query name and that
sorted copy. -/
inductive PanelContent where
  | initializing
  | errorText (msg : String)
  | noData
  | graph (name : String) (sortedPoints : List DataPoint)
deriving Repr

/-- The text content of the shared time-range footer `tview.TextView`:
either the waiting placeholder or a from–to range of two instants. -/
inductive TimeRangeDisplay where
  | waiting
  | range (earliest latest : Int)
deriving Repr

/-- `ui.TUI`: the terminal user interface state.  The `tview.Application`,
the flex containers and the visual focus markers are drawing-library
internals; the panel list keeps each panel's current text content. -/
structure TUI where
  panels : List PanelContent
  timeRange : TimeRangeDisplay
  focusIndex : Int
  scrollOffset : Int
  visiblePanels : Int
  histories : List QueryHistory
deriving Repr

/-- `updateScrollView` (ui.go:136–168): clamps the scroll offset into
`[0, max 0 (len(panels) - visiblePanels)]` and rebuilds the visible window.
Returns immediately when there are no panels. -/
def updateScrollView (t : TUI) : TUI :=
  if t.panels.length = 0 then t
  else
    let maxOffset : Int := (t.panels.length : Int) - t.visiblePanels
    let maxOffset : Int := if maxOffset < 0 then 0 else maxOffset
    let off : Int := if t.scrollOffset > maxOffset then maxOffset else t.scrollOffset
    let off : Int := if off < 0 then 0 else off
    { t with scrollOffset := off }

/-- `scrollToShowFocus` (ui.go:171–191): if the focused panel is right of the
visible window, scroll so it is the window's last panel; if left of it,
scroll so it is the window's first panel; then re-clamp via
`updateScrollView`.  The focus index itself is never modified. -/
def scrollToShowFocus (t : TUI) : TUI :=
  if t.panels.length = 0 then t
  else
    let visibleStart := t.scrollOffset
    let visibleEnd := t.scrollOffset + t.visiblePanels - 1
    let t₁ := if t.focusIndex > visibleEnd then
        { t with scrollOffset := t.focusIndex - t.visiblePanels + 1 } else t
    let t₂ := if t₁.focusIndex < visibleStart then
        { t₁ with scrollOffset := t₁.focusIndex } else t₁
    updateScrollView t₂

/-- `focusNext` (ui.go:194–200): advance the focus with wraparound (Go's `%`
is truncated remainder, `Int.tmod`), then scroll to show it.  (`updateFocus`
only repaints border colors.)  No-op when there are no panels. -/
def focusNext (t : TUI) : TUI :=
  if t.panels.length > 0 then
    scrollToShowFocus { t with focusIndex := (t.focusIndex + 1).tmod (t.panels.length : Int) }
  else t

/-- `focusPrev` (ui.go:203–209): retreat the focus with wraparound, then
scroll to show it.  No-op when there are no panels. -/
def focusPrev (t : TUI) : TUI :=
  if t.panels.length > 0 then
    scrollToShowFocus
      { t with focusIndex := (t.focusIndex - 1 + (t.panels.length : Int)).tmod (t.panels.length : Int) }
  else t

/-- `setupUI` (ui.go:61–133), state-relevant part: every panel starts with
the `Initializing...` text, the visible-panel count is the total count when
there are at most two queries and 3 otherwise, the scroll view is
initialized (clamping the offset) and the footer shows the waiting text. -/
def setupUI (t : TUI) (queries : List Query) : TUI :=
  let t := { t with panels := queries.map fun _ => PanelContent.initializing }
  let t := { t with visiblePanels :=
      if queries.length ≤ 2 then (queries.length : Int)
      else if queries.length = 3 then 3 else 3 }
  let t := updateScrollView t
  { t with timeRange := TimeRangeDisplay.waiting }

/-- `NewTUI` (ui.go:37–58): one history per configured query, each with an
allocated empty (non-`nil`) series and no error; focus and scroll start at
0; `visiblePanels` starts at 3 before `setupUI` adjusts it. -/
def NewTUI (queries : List Query) : TUI :=
  let t : TUI :=
    { panels := []
      timeRange := TimeRangeDisplay.waiting
      focusIndex := 0
      scrollOffset := 0
      visiblePanels := 3
      histories := queries.map fun q =>
        { name := q.name
          timeSeries := some { points := [] }
          lastError := none } }
  setupUI t queries

/-! ## Time-range footer — `updateTimeRange` (ui.go:236–275) -/

/-- One step of the inner loop of `updateTimeRange`: fold a point into the
running `(earliestTime, latestTime)` pair (`none` while `hasData` is still
false).  `point.Timestamp.Before(*earliestTime)` is `<`,
`point.Timestamp.After(*latestTime)` is `>`. -/
def timeRangeStep (acc : Option (Int × Int)) (p : DataPoint) : Option (Int × Int) :=
  match acc with
  | none => some (p.timestamp, p.timestamp)
  | some (e, l) =>
    let e := if p.timestamp < e then p.timestamp else e
    let l := if p.timestamp > l then p.timestamp else l
    some (e, l)

/-- The double loop of `updateTimeRange` (ui.go:246–263): walk every
history; for a history with a non-`nil`, non-empty series walk its points,
tracking the overall earliest and latest timestamp. -/
def computeTimeRange (histories : List QueryHistory) : Option (Int × Int) :=
  histories.foldl
    (fun acc h =>
      match h.timeSeries with
      | none => acc
      | some ts => if 0 < ts.points.length then ts.points.foldl timeRangeStep acc else acc)
    none

/-- `updateTimeRange` (ui.go:236–275): set the footer text to the computed
from–to range, or to the waiting placeholder when no history has data. -/
def updateTimeRange (t : TUI) : TUI :=
  { t with timeRange :=
      match computeTimeRange t.histories with
      | some (e, l) => TimeRangeDisplay.range e l
      | none => TimeRangeDisplay.waiting }

/-! ## Rendering — `renderTimeSeriesGraph` (ui.go:308–388) -/

/-- Insert a point into a list already sorted ascending by timestamp. -/
def insertByTimestamp (p : DataPoint) : List DataPoint → List DataPoint
  | [] => [p]
  | q :: qs =>
    if p.timestamp ≤ q.timestamp then p :: q :: qs else q :: insertByTimestamp p qs

/-- `sort.Slice(points, ...Before...)` (ui.go:320–322): sort ascending by
timestamp.  (Go's `sort.Slice` is unstable, so only the ascending order is
specified; ties may land in any order.) -/
def sortPoints : List DataPoint → List DataPoint
  | [] => []
  | p :: ps => insertByTimestamp p (sortPoints ps)

/-- `renderTimeSeriesGraph` (ui.go:308–388): read the panel's history; with
zero points show the `No data available` text; otherwise sort a **copy** of
the points by timestamp and build the text block (current value, time span,
asciigraph plot) from that sorted copy.  The stored history is not written.
`none` models a Go panic: an out-of-range slice index, or the `nil`-pointer
dereference `history.TimeSeries.Points` when the stored series pointer is
`nil`. -/
def renderTimeSeriesGraph (t : TUI) (index : Nat) : Option PanelContent :=
  match t.histories.get? index with
  | none => none
  | some history =>
    match history.timeSeries with
    | none => none
    | some ts =>
      if ts.points.length = 0 then some PanelContent.noData
      else some (PanelContent.graph history.name (sortPoints ts.points))

/-! ## The update entry points — `UpdateTimeSeries` / `UpdateMetric` -/

/-- The immediate history write of `UpdateTimeSeries` (ui.go:283–289),
after the in-range check: with a non-`nil` error only `LastError` is
overwritten (the stored series is untouched); otherwise the series pointer
is replaced wholesale by the argument and `LastError` is cleared. -/
def applyHistoryWrite (histories : List QueryHistory) (i : Nat)
    (timeSeries : Option TimeSeriesResult) (err : Option String) : List QueryHistory :=
  match histories.get? i with
  | none => histories
  | some h =>
    match err with
    | some _ => histories.set i { h with lastError := err }
    | none => histories.set i { h with timeSeries := timeSeries, lastError := none }

/-- The body of the closure passed to `QueueUpdateDraw` (ui.go:293–303):
with a non-`nil` error set the panel text to the error text, otherwise
render the graph (which can panic on a `nil` stored series, modelled by
`none`); then recompute the shared time-range footer. -/
def queuedDraw (t : TUI) (i : Nat) (err : Option String) : Option TUI :=
  match err with
  | some e => some (updateTimeRange { t with panels := t.panels.set i (PanelContent.errorText e) })
  | none =>
    match renderTimeSeriesGraph t i with
    | none => none
    | some content => some (updateTimeRange { t with panels := t.panels.set i content })

/-- `UpdateTimeSeries` (ui.go:277–305): an out-of-range index (negative
included) is a silent no-op; otherwise the history cell is overwritten
immediately and, since the `tview` application always exists after `NewTUI`,
a draw of that panel plus the footer is queued whenever the index is within
the panel list.  The result is the state after the queued draw has run on
the UI loop; `none` models a panic inside that draw. -/
def UpdateTimeSeries (t : TUI) (index : Int) (timeSeries : Option TimeSeriesResult)
    (err : Option String) : Option TUI :=
  if index < 0 ∨ (t.histories.length : Int) ≤ index then some t
  else
    let i : Nat := index.toNat
    let t₁ : TUI := { t with histories := applyHistoryWrite t.histories i timeSeries err }
    if index < (t₁.panels.length : Int) then queuedDraw t₁ i err
    else some t₁

/-- `UpdateMetric` (ui.go:390–402), the deprecated single-point entry: with
a non-`nil` error forward `(index, nil, err)` to `UpdateTimeSeries`;
otherwise wrap the single point into a one-element series and forward that.
It performs no history or panel write of its own. -/
def UpdateMetric (t : TUI) (index : Int) (result : DataPoint) (err : Option String) : Option TUI :=
  match err with
  | some e => UpdateTimeSeries t index none (some e)
  | none => UpdateTimeSeries t index (some { points := [result] }) none

/-! ## Configuration — `internal/config/config.go` -/

/-- `prom.Config`. -/
structure PromConfig where
  url : String
deriving Repr

/-- `influxdb.Config` (InfluxDB v2). -/
structure InfluxDBConfig where
  url : String
  token : String
  org : String
  bucket : String
deriving Repr

/-- `influxdb1.Config` (InfluxDB v1). -/
structure InfluxDB1Config where
  url : String
  username : String
  password : String
  database : String
deriving Repr

/-- `mock.Config`. -/
structure MockConfig where
  seed : Int
deriving Repr

/-- `config.Config`: the parsed YAML configuration. -/
structure Config where
  backend : String
  prometheus : PromConfig
  influxdb : InfluxDBConfig
  influxdb1 : InfluxDB1Config
  mock : MockConfig
  queries : List Query
deriving Repr

/-- `Config.Validate` (config.go): default an empty backend identifier to
`"prometheus"`, check the selected backend's required fields, reject an
unsupported identifier, and require at least one query with both fields
non-empty.  Returns the resolved configuration (`Validate` mutates
`c.Backend` in place). -/
def validateConfig (c : Config) : Except String Config :=
  let c := if c.backend = "" then { c with backend := "prometheus" } else c
  let checked : Except String Unit :=
    if c.backend = "prometheus" then
      if c.prometheus.url = "" then Except.error "prometheus.url is required" else Except.ok ()
    else if c.backend = "influxdb" then
      if c.influxdb.url = "" then Except.error "influxdb.url is required"
      else if c.influxdb.token = "" then Except.error "influxdb.token is required"
      else if c.influxdb.org = "" then Except.error "influxdb.org is required"
      else if c.influxdb.bucket = "" then Except.error "influxdb.bucket is required"
      else Except.ok ()
    else if c.backend = "influxdb1" then
      if c.influxdb1.url = "" then Except.error "influxdb1.url is required"
      else if c.influxdb1.database = "" then Except.error "influxdb1.database is required"
      else Except.ok ()
    else if c.backend = "mock" then Except.ok ()
    else Except.error ("unsupported backend: " ++ c.backend ++
      " (supported: prometheus, influxdb, influxdb1, mock)")
  match checked with
  | Except.error e => Except.error e
  | Except.ok _ =>
    if c.queries.length = 0 then Except.error "at least one query is required"
    else if c.queries.any (fun q => q.name = "" || q.expr = "") then
      Except.error "query name and expr are required"
    else Except.ok c

/-! ## Backend factory and startup — `internal/app/app.go` -/

/-- A constructed backend instance, tagged by which client package built it
(the wire-protocol clients themselves are opaque external collaborators). -/
inductive BackendInstance where
  | prom (c : PromConfig)
  | influxdb (c : InfluxDBConfig)
  | influxdb1 (c : InfluxDB1Config)
  | mock (c : MockConfig)
deriving Repr

/-- The four client constructors, passed in abstractly: `prom.NewClient`,
`influxdb.NewClient` and `influxdb1.NewClient` return `(client, error)`
pairs, `mock.NewClient` cannot fail. -/
structure Constructors where
  promNew : PromConfig → Except String BackendInstance
  influxNew : InfluxDBConfig → Except String BackendInstance
  influx1New : InfluxDB1Config → Except String BackendInstance
  mockNew : MockConfig → BackendInstance

/-- `createBackend` (app.go:67–85): dispatch on the configured backend
identifier string — `"prometheus"` and `""` go to the Prometheus client,
`"influxdb"`, `"influxdb1"` and `"mock"` to theirs, and anything else is the
`unsupported backend` error. -/
def createBackend (ctors : Constructors) (cfg : Config) : Except String BackendInstance :=
  if cfg.backend = "prometheus" ∨ cfg.backend = "" then ctors.promNew cfg.prometheus
  else if cfg.backend = "influxdb" then ctors.influxNew cfg.influxdb
  else if cfg.backend = "influxdb1" then ctors.influx1New cfg.influxdb1
  else if cfg.backend = "mock" then Except.ok (ctors.mockNew cfg.mock)
  else Except.error ("unsupported backend: " ++ cfg.backend ++
    " (supported: prometheus, influxdb, influxdb1, mock)")

/-- `app.New` (app.go:30–65) after the YAML file has been parsed into `cfg`:
validate the configuration (inside `LoadConfig`), construct the backend,
probe connectivity (`Connect`, an external call modelled by the `connect`
argument), and only then build the UI with `NewTUI`.  Any error returns
before the following steps run, so a failed startup never constructs a UI. -/
def appNew (ctors : Constructors) (connect : BackendInstance → Except String Unit)
    (cfg : Config) : Except String (BackendInstance × TUI) :=
  match validateConfig cfg with
  | Except.error e => Except.error ("failed to load config: " ++ e)
  | Except.ok cfg =>
    match createBackend ctors cfg with
    | Except.error e => Except.error ("failed to create backend: " ++ e)
    | Except.ok b =>
      match connect b with
      | Except.error e => Except.error e
      | Except.ok _ => Except.ok (b, NewTUI cfg.queries)

/-! ## Shutdown interleaving — `internal/app/app.go`

A small labelled-transition model of the goroutines `app.go` actually
creates and of which of them the `sync.WaitGroup` tracks.  `Start`
(app.go:88–103) does `wg.Add(1)` for the `updateLoop` goroutine only;
`updateMetrics` (app.go:134–151) spawns one goroutine per query **without**
touching the wait group; `Stop` (app.go:105–120) stops the ticker, cancels
the context, and after `wg.Wait()` returns closes the backend. -/

/-- Global state of the shutdown model: the `sync.WaitGroup` counter, the
number of per-query refresh goroutines still running, and the lifecycle
flags of `Stop`. -/
structure AppState where
  wgCount : Nat
  refreshInFlight : Nat
  updateLoopRunning : Bool
  cancelled : Bool
  tickerStopped : Bool
  backendClosed : Bool
deriving Repr, DecidableEq

/-- The state right after `Start` on one configured query: the tracked
`updateLoop` goroutine is running (`wg.Add(1)` was called for it alone) and
the initial `go a.updateMetrics()` cycle has spawned its single per-query
refresh goroutine — `updateMetrics` launches it with a bare `go func`,
never calling `wg.Add`. -/
def startedState : AppState :=
  { wgCount := 1
    refreshInFlight := 1
    updateLoopRunning := true
    cancelled := false
    tickerStopped := false
    backendClosed := false }

/-- One interleaving step.  Each constructor is a line of `app.go`:
* `spawnRefresh` — `updateMetrics` runs a `go func(idx, q)` (app.go:140);
  the wait-group counter is **not** incremented;
* `finishRefresh` — a per-query goroutine returns after its
  `UpdateTimeSeries` call;
* `cancelAndStopUI` — `Stop` runs `updateTicker.Stop()`, `a.cancel()` and
  `a.ui.Stop()` (app.go:107–111);
* `updateLoopExit` — `updateLoop` observes `ctx.Done()` and returns,
  running its deferred `wg.Done()` (app.go:94, 126–127);
* `closeBackend` — `Stop` passes `wg.Wait()` (which only requires the
  wait-group counter to be zero) and calls `backend.Close()`
  (app.go:114–119). -/
inductive AppStep : AppState → AppState → Prop where
  | spawnRefresh (s : AppState) (h : s.cancelled = false) :
      AppStep s { s with refreshInFlight := s.refreshInFlight + 1 }
  | finishRefresh (s : AppState) (h : 0 < s.refreshInFlight) :
      AppStep s { s with refreshInFlight := s.refreshInFlight - 1 }
  | cancelAndStopUI (s : AppState) :
      AppStep s { s with cancelled := true, tickerStopped := true }
  | updateLoopExit (s : AppState) (hc : s.cancelled = true)
      (hr : s.updateLoopRunning = true) :
      AppStep s { s with updateLoopRunning := false, wgCount := s.wgCount - 1 }
  | closeBackend (s : AppState) (hc : s.cancelled = true) (hw : s.wgCount = 0) :
      AppStep s { s with backendClosed := true }

/-- Reflexive-transitive closure of the interleaving steps. -/
inductive AppReachable : AppState → AppState → Prop where
  | refl (s : AppState) : AppReachable s s
  | tail {s t u : AppState} : AppReachable s t → AppStep t u → AppReachable s u

/-! ## Helper lemmas -/

theorem tmod_bounds {a n : Int} (ha : 0 ≤ a) (hn : 0 < n) :
    0 ≤ a.tmod n ∧ a.tmod n < n := by
  rw [Int.tmod_eq_emod ha (le_of_lt hn)]
  exact ⟨Int.emod_nonneg a (ne_of_gt hn), Int.emod_lt_of_pos a hn⟩

theorem scrollToShowFocus_focusIndex (t : TUI) :
    (scrollToShowFocus t).focusIndex = t.focusIndex := by
  simp only [scrollToShowFocus, updateScrollView]
  split_ifs <;> rfl

theorem scrollToShowFocus_panels (t : TUI) :
    (scrollToShowFocus t).panels = t.panels := by
  simp only [scrollToShowFocus, updateScrollView]
  split_ifs <;> rfl

theorem scrollToShowFocus_visiblePanels (t : TUI) :
    (scrollToShowFocus t).visiblePanels = t.visiblePanels := by
  simp only [scrollToShowFocus, updateScrollView]
  split_ifs <;> rfl

/-- The scroll-offset adjustment establishes the visibility invariant for
any in-range focus, whatever the previous offset was. -/
theorem scrollToShowFocus_inv (t : TUI) (hn : 0 < t.panels.length)
    (hv1 : 1 ≤ t.visiblePanels) (hv2 : t.visiblePanels ≤ (t.panels.length : Int))
    (hf0 : 0 ≤ t.focusIndex) (hf1 : t.focusIndex < (t.panels.length : Int)) :
    (scrollToShowFocus t).scrollOffset ≤ t.focusIndex ∧
      t.focusIndex ≤ (scrollToShowFocus t).scrollOffset + t.visiblePanels - 1 := by
  have hne : ¬ t.panels.length = 0 := Nat.pos_iff_ne_zero.mp hn
  simp only [scrollToShowFocus, updateScrollView]
  split_ifs <;> simp_all <;> omega

/-- C1: for every panel state with at least one query, a valid focus
(`0 ≤ focus < query count`) and the derived visible count
(`1 ≤ visible ≤ query count`, as `setupUI` establishes), after `focusNext`
or `focusPrev` the invariant
`scroll offset ≤ focus index ≤ scroll offset + visible count - 1` holds;
the transitions adjust only the scroll offset — the resulting focus index is
exactly the wraparound-advanced focus, never post-adjusted by
`scrollToShowFocus`/`updateScrollView`. -/
theorem focusNav_establishes_scroll_invariant (t : TUI) (hn : 0 < t.panels.length)
    (hv1 : 1 ≤ t.visiblePanels) (hv2 : t.visiblePanels ≤ (t.panels.length : Int))
    (hf0 : 0 ≤ t.focusIndex) (hf1 : t.focusIndex < (t.panels.length : Int)) :
    ((focusNext t).scrollOffset ≤ (focusNext t).focusIndex ∧
      (focusNext t).focusIndex ≤ (focusNext t).scrollOffset + (focusNext t).visiblePanels - 1 ∧
      (focusNext t).focusIndex = (t.focusIndex + 1).tmod (t.panels.length : Int)) ∧
    ((focusPrev t).scrollOffset ≤ (focusPrev t).focusIndex ∧
      (focusPrev t).focusIndex ≤ (focusPrev t).scrollOffset + (focusPrev t).visiblePanels - 1 ∧
      (focusPrev t).focusIndex =
        (t.focusIndex - 1 + (t.panels.length : Int)).tmod (t.panels.length : Int)) := by
  have hnz : (0 : Int) < (t.panels.length : Int) := by exact_mod_cast hn
  constructor
  · -- focusNext
    have hguard : t.panels.length > 0 := hn
    set t' : TUI :=
      { t with focusIndex := (t.focusIndex + 1).tmod (t.panels.length : Int) } with ht'
    have hdef : focusNext t = scrollToShowFocus t' := by
      simp only [focusNext, if_pos hguard]
    have hb := tmod_bounds (a := t.focusIndex + 1) (n := (t.panels.length : Int))
      (by omega) hnz
    have hinv := scrollToShowFocus_inv t' hn hv1 hv2 hb.1 hb.2
    have hfoc := scrollToShowFocus_focusIndex t'
    have hvis := scrollToShowFocus_visiblePanels t'
    rw [hdef, hfoc, hvis]
    exact ⟨hinv.1, hinv.2, rfl⟩
  · -- focusPrev
    have hguard : t.panels.length > 0 := hn
    set t' : TUI :=
      { t with focusIndex :=
          (t.focusIndex - 1 + (t.panels.length : Int)).tmod (t.panels.length : Int) } with ht'
    have hdef : focusPrev t = scrollToShowFocus t' := by
      simp only [focusPrev, if_pos hguard]
    have hb := tmod_bounds (a := t.focusIndex - 1 + (t.panels.length : Int))
      (n := (t.panels.length : Int)) (by omega) hnz
    have hinv := scrollToShowFocus_inv t' hn hv1 hv2 hb.1 hb.2
    have hfoc := scrollToShowFocus_focusIndex t'
    have hvis := scrollToShowFocus_visiblePanels t'
    rw [hdef, hfoc, hvis]
    exact ⟨hinv.1, hinv.2, rfl⟩

/-- Witness for C1: a concrete 5-panel state (visible window 3, focus 4,
offset 2); `focusNext` wraps the focus to 0 and scrolls the window back to
the left edge, `focusPrev` moves to 3 keeping the window. -/
theorem focusNav_establishes_scroll_invariant_witness :
    (let t : TUI :=
      { panels := List.replicate 5 PanelContent.initializing
        timeRange := TimeRangeDisplay.waiting
        focusIndex := 4
        scrollOffset := 2
        visiblePanels := 3
        histories := [] }
     0 < t.panels.length ∧ 1 ≤ t.visiblePanels ∧ t.visiblePanels ≤ (t.panels.length : Int) ∧
     0 ≤ t.focusIndex ∧ t.focusIndex < (t.panels.length : Int) ∧
     (((focusNext t).scrollOffset ≤ (focusNext t).focusIndex ∧
       (focusNext t).focusIndex ≤ (focusNext t).scrollOffset + (focusNext t).visiblePanels - 1 ∧
       (focusNext t).focusIndex = (t.focusIndex + 1).tmod (t.panels.length : Int)) ∧
      ((focusPrev t).scrollOffset ≤ (focusPrev t).focusIndex ∧
       (focusPrev t).focusIndex ≤ (focusPrev t).scrollOffset + (focusPrev t).visiblePanels - 1 ∧
       (focusPrev t).focusIndex =
         (t.focusIndex - 1 + (t.panels.length : Int)).tmod (t.panels.length : Int)))) := by
  refine ⟨by decide, by decide, by decide, by decide, by decide, ?_⟩
  exact focusNav_establishes_scroll_invariant _ (by decide) (by decide) (by decide)
    (by decide) (by decide)

theorem focusNext_panels (t : TUI) : (focusNext t).panels = t.panels := by
  by_cases h : t.panels.length > 0
  · simp only [focusNext, if_pos h, scrollToShowFocus_panels]
  · simp only [focusNext, if_neg h]

theorem focusNext_focusIndex (t : TUI) (hn : t.panels.length > 0) :
    (focusNext t).focusIndex = (t.focusIndex + 1).tmod (t.panels.length : Int) := by
  simp only [focusNext, if_pos hn, scrollToShowFocus_focusIndex]

theorem focusPrev_focusIndex (t : TUI) (hn : t.panels.length > 0) :
    (focusPrev t).focusIndex =
      (t.focusIndex - 1 + (t.panels.length : Int)).tmod (t.panels.length : Int) := by
  simp only [focusPrev, if_pos hn, scrollToShowFocus_focusIndex]

theorem add_self_emod (a b : Int) : (a + b) % b = a % b := by
  have h := Int.add_mul_emod_self_left (a := a) (b := b) (c := 1)
  simp only [mul_one] at h
  exact h

/-- Iterating `focusNext` from a valid focus advances the focus index by the
iteration count, modulo the panel count, and never touches the panel list. -/
theorem focusNext_iterate (t : TUI) (hn : 0 < t.panels.length)
    (hf0 : 0 ≤ t.focusIndex) (hf1 : t.focusIndex < (t.panels.length : Int)) :
    ∀ k : Nat, (focusNext^[k] t).panels = t.panels ∧
      (focusNext^[k] t).focusIndex = (t.focusIndex + k) % (t.panels.length : Int) := by
  have hnz : (0 : Int) < (t.panels.length : Int) := by exact_mod_cast hn
  intro k
  induction k with
  | zero =>
    refine ⟨rfl, ?_⟩
    simp [Int.emod_eq_of_lt hf0 hf1]
  | succ k ih =>
    obtain ⟨hp, hf⟩ := ih
    have hlen : (focusNext^[k] t).panels.length > 0 := by rw [hp]; exact hn
    have hfge : 0 ≤ (focusNext^[k] t).focusIndex := by
      rw [hf]; exact Int.emod_nonneg _ (ne_of_gt hnz)
    constructor
    · rw [Function.iterate_succ_apply', focusNext_panels, hp]
    · rw [Function.iterate_succ_apply', focusNext_focusIndex _ hlen, hp, hf,
        Int.tmod_eq_emod (by omega) (le_of_lt hnz), Int.emod_add_emod]
      push_cast
      ring_nf

/-- C7: from any valid focus in a state with `n > 0` panels, `n` successive
`focusNext` transitions return the focus index to its original value;
`focusPrev` undoes `focusNext` (and wraps `0` back to `n - 1`, being the
`(focus - 1 + n) mod n` map); with an empty panel list both transitions
leave the whole state — in particular the focus index — unchanged (total
functions, no panic). -/
theorem focusNext_cycle (t : TUI) (hn : 0 < t.panels.length)
    (hf0 : 0 ≤ t.focusIndex) (hf1 : t.focusIndex < (t.panels.length : Int)) :
    (focusNext^[t.panels.length] t).focusIndex = t.focusIndex ∧
    (focusPrev (focusNext t)).focusIndex = t.focusIndex ∧
    (∀ u : TUI, u.panels = [] → focusNext u = u ∧ focusPrev u = u) := by
  have hnz : (0 : Int) < (t.panels.length : Int) := by exact_mod_cast hn
  refine ⟨?_, ?_, ?_⟩
  · have h := (focusNext_iterate t hn hf0 hf1 t.panels.length).2
    rw [h, add_self_emod, Int.emod_eq_of_lt hf0 hf1]
  · have h1 := (focusNext_iterate t hn hf0 hf1 1).2
    simp only [Function.iterate_one] at h1
    push_cast at h1
    have hp := focusNext_panels t
    have hlen : (focusNext t).panels.length > 0 := by rw [hp]; exact hn
    have hfge : 0 ≤ (focusNext t).focusIndex := by
      rw [h1]; exact Int.emod_nonneg _ (ne_of_gt hnz)
    rw [focusPrev_focusIndex _ hlen, hp,
      Int.tmod_eq_emod (by omega) (le_of_lt hnz), h1]
    have : (t.focusIndex + 1) % (t.panels.length : Int) - 1 + (t.panels.length : Int) =
        (t.focusIndex + 1) % (t.panels.length : Int) + ((t.panels.length : Int) - 1) := by ring
    rw [this, Int.emod_add_emod]
    have : t.focusIndex + 1 + ((t.panels.length : Int) - 1) =
        t.focusIndex + (t.panels.length : Int) := by ring
    rw [this, add_self_emod, Int.emod_eq_of_lt hf0 hf1]
  · intro u hu
    constructor
    · simp [focusNext, hu]
    · simp [focusPrev, hu]

/-- Witness for C7: a concrete 4-panel state with focus 2; four `focusNext`
steps return the focus to 2. -/
theorem focusNext_cycle_witness :
    (let t : TUI :=
      { panels := List.replicate 4 PanelContent.initializing
        timeRange := TimeRangeDisplay.waiting
        focusIndex := 2
        scrollOffset := 0
        visiblePanels := 3
        histories := [] }
     0 < t.panels.length ∧ 0 ≤ t.focusIndex ∧ t.focusIndex < (t.panels.length : Int) ∧
     ((focusNext^[t.panels.length] t).focusIndex = t.focusIndex ∧
      (focusPrev (focusNext t)).focusIndex = t.focusIndex ∧
      (∀ u : TUI, u.panels = [] → focusNext u = u ∧ focusPrev u = u))) := by
  exact ⟨by decide, by decide, by decide,
    focusNext_cycle _ (by decide) (by decide) (by decide)⟩

theorem updateTimeRange_histories (t : TUI) : (updateTimeRange t).histories = t.histories := rfl

theorem updateTimeRange_panels (t : TUI) : (updateTimeRange t).panels = t.panels := rfl

/-- C6: `UpdateTimeSeries` with any index outside `[0, query count)` —
negative indices included — returns the state unchanged: no history write,
no queued draw, no error, no panic. -/
theorem updateTimeSeries_out_of_range_noop (t : TUI) (index : Int)
    (ts : Option TimeSeriesResult) (err : Option String)
    (h : index < 0 ∨ (t.histories.length : Int) ≤ index) :
    UpdateTimeSeries t index ts err = some t := by
  simp only [UpdateTimeSeries, if_pos h]

/-- Witness for C6: a negative index and a too-large index on a concrete
one-panel state are both silent no-ops. -/
theorem updateTimeSeries_out_of_range_noop_witness :
    (let t : TUI :=
      { panels := [PanelContent.initializing]
        timeRange := TimeRangeDisplay.waiting
        focusIndex := 0
        scrollOffset := 0
        visiblePanels := 1
        histories := [{ name := "q0", timeSeries := some { points := [] }, lastError := none }] }
     ((-3 : Int) < 0 ∨ (t.histories.length : Int) ≤ -3) ∧
     ((1 : Int) < 0 ∨ (t.histories.length : Int) ≤ 1) ∧
     UpdateTimeSeries t (-3) (some { points := [] }) none = some t ∧
     UpdateTimeSeries t 1 none (some "boom") = some t) := by
  refine ⟨by decide, by decide, ?_, ?_⟩
  · exact updateTimeSeries_out_of_range_noop _ _ _ _ (by decide)
  · exact updateTimeSeries_out_of_range_noop _ _ _ _ (by decide)

/-- C3: for an in-range index and a non-`nil` error, `UpdateTimeSeries`
records the error as that panel's latest error and leaves that panel's
previously stored series — and every other panel's history and text —
unchanged; the call never fails. -/
theorem updateTimeSeries_error_preserves_series (t : TUI) (index : Nat) (e : String)
    (hidx : index < t.histories.length) :
    ∃ t', UpdateTimeSeries t (index : Int) none (some e) = some t' ∧
      (t'.histories.get? index).map QueryHistory.timeSeries =
        (t.histories.get? index).map QueryHistory.timeSeries ∧
      (t'.histories.get? index).map QueryHistory.lastError = some (some e) ∧
      (∀ j : Nat, j ≠ index → t'.histories.get? j = t.histories.get? j) ∧
      (∀ j : Nat, j ≠ index → t'.panels.get? j = t.panels.get? j) := by
  have hneg : ¬ ((index : Int) < 0 ∨ (t.histories.length : Int) ≤ (index : Int)) := by
    push_neg
    exact ⟨Int.natCast_nonneg index, by exact_mod_cast hidx⟩
  have hget : t.histories.get? index = some (t.histories.get ⟨index, hidx⟩) :=
    List.get?_eq_get hidx
  simp only [UpdateTimeSeries, if_neg hneg, Int.toNat_natCast, applyHistoryWrite, hget]
  by_cases hp : (index : Int) < ((t.panels.length : Nat) : Int)
  · simp only [if_pos hp, queuedDraw, updateTimeRange]
    refine ⟨_, rfl, ?_, ?_, ?_, ?_⟩
    · rw [List.get?_set_eq_of_lt _ (by simpa using hidx)]
      rfl
    · rw [List.get?_set_eq_of_lt _ (by simpa using hidx)]
      rfl
    · intro j hj
      exact List.get?_set_ne _ _ (Ne.symm hj)
    · intro j hj
      exact List.get?_set_ne _ _ (Ne.symm hj)
  · simp only [if_neg hp]
    refine ⟨_, rfl, ?_, ?_, ?_, ?_⟩
    · rw [List.get?_set_eq_of_lt _ (by simpa using hidx)]
      rfl
    · rw [List.get?_set_eq_of_lt _ (by simpa using hidx)]
      rfl
    · intro j hj
      exact List.get?_set_ne _ _ (Ne.symm hj)
    · intro j hj
      rfl

/-- Witness for C3: storing a point then failing leaves the stored
one-point series in place while the error is recorded. -/
theorem updateTimeSeries_error_preserves_series_witness :
    (let t : TUI :=
      { panels := [PanelContent.initializing, PanelContent.initializing]
        timeRange := TimeRangeDisplay.waiting
        focusIndex := 0
        scrollOffset := 0
        visiblePanels := 2
        histories :=
          [{ name := "q0"
             timeSeries := some { points := [{ timestamp := 10, value := 1.5 }] }
             lastError := none },
           { name := "q1", timeSeries := some { points := [] }, lastError := none }] }
     0 < t.histories.length ∧
     ∃ t', UpdateTimeSeries t ((0 : Nat) : Int) none (some "timeout") = some t' ∧
      (t'.histories.get? 0).map QueryHistory.timeSeries =
        (t.histories.get? 0).map QueryHistory.timeSeries ∧
      (t'.histories.get? 0).map QueryHistory.lastError = some (some "timeout") ∧
      (∀ j : Nat, j ≠ 0 → t'.histories.get? j = t.histories.get? j) ∧
      (∀ j : Nat, j ≠ 0 → t'.panels.get? j = t.panels.get? j)) := by
  exact ⟨by decide, updateTimeSeries_error_preserves_series _ 0 "timeout" (by decide)⟩

/-- C4: for an in-range index, a successful `UpdateTimeSeries` replaces
that panel's stored series wholesale with exactly the provided series and
clears the error, leaving every other history untouched; the equalities are
stated on the state **after** the queued draw (which renders from a sorted
copy) has run, so rendering did not alter the stored series. -/
theorem updateTimeSeries_success_replaces_wholesale (t : TUI) (index : Nat)
    (s : TimeSeriesResult) (hidx : index < t.histories.length)
    (hlen : t.histories.length = t.panels.length) :
    ∃ t', UpdateTimeSeries t (index : Int) (some s) none = some t' ∧
      (t'.histories.get? index).map QueryHistory.timeSeries = some (some s) ∧
      (t'.histories.get? index).map QueryHistory.lastError = some none ∧
      (∀ j : Nat, j ≠ index → t'.histories.get? j = t.histories.get? j) := by
  have hneg : ¬ ((index : Int) < 0 ∨ (t.histories.length : Int) ≤ (index : Int)) := by
    push_neg
    exact ⟨Int.natCast_nonneg index, by exact_mod_cast hidx⟩
  have hget : t.histories.get? index = some (t.histories.get ⟨index, hidx⟩) :=
    List.get?_eq_get hidx
  have hp : ((index : Nat) : Int) < (t.panels.length : Int) := by
    rw [← hlen]; exact_mod_cast hidx
  simp only [UpdateTimeSeries, if_neg hneg, Int.toNat_natCast, applyHistoryWrite, hget]
  simp only [if_pos hp, queuedDraw, renderTimeSeriesGraph]
  rw [List.get?_set_eq_of_lt _ (by simpa using hidx)]
  by_cases hz : s.points.length = 0
  · simp only [hz, if_pos rfl]
    refine ⟨_, rfl, ?_, ?_, ?_⟩
    · rw [updateTimeRange_histories, List.get?_set_eq_of_lt _ (by simpa using hidx)]
      rfl
    · rw [updateTimeRange_histories, List.get?_set_eq_of_lt _ (by simpa using hidx)]
      rfl
    · intro j hj
      rw [updateTimeRange_histories]
      exact List.get?_set_ne _ _ (Ne.symm hj)
  · simp only [if_neg hz]
    refine ⟨_, rfl, ?_, ?_, ?_⟩
    · rw [updateTimeRange_histories, List.get?_set_eq_of_lt _ (by simpa using hidx)]
      rfl
    · rw [updateTimeRange_histories, List.get?_set_eq_of_lt _ (by simpa using hidx)]
      rfl
    · intro j hj
      rw [updateTimeRange_histories]
      exact List.get?_set_ne _ _ (Ne.symm hj)

/-- Witness for C4: an out-of-timestamp-order two-point series is stored
exactly as provided on a concrete one-panel state. -/
theorem updateTimeSeries_success_replaces_wholesale_witness :
    (let s : TimeSeriesResult :=
      { points := [{ timestamp := 20, value := 2.0 }, { timestamp := 10, value := 1.0 }] }
     let t : TUI :=
      { panels := [PanelContent.initializing]
        timeRange := TimeRangeDisplay.waiting
        focusIndex := 0
        scrollOffset := 0
        visiblePanels := 1
        histories := [{ name := "q0", timeSeries := some { points := [] }, lastError := none }] }
     0 < t.histories.length ∧ t.histories.length = t.panels.length ∧
     ∃ t', UpdateTimeSeries t ((0 : Nat) : Int) (some s) none = some t' ∧
      (t'.histories.get? 0).map QueryHistory.timeSeries = some (some s) ∧
      (t'.histories.get? 0).map QueryHistory.lastError = some none ∧
      (∀ j : Nat, j ≠ 0 → t'.histories.get? j = t.histories.get? j)) := by
  exact ⟨by decide, by decide,
    updateTimeSeries_success_replaces_wholesale _ 0 _ (by decide) (by decide)⟩

/-- C9: the deprecated `UpdateMetric` entry point is definitionally the
thin adapter over `UpdateTimeSeries`: a successful single-point update is
exactly `UpdateTimeSeries` applied to the one-element series containing
that point, and a failed one is exactly `UpdateTimeSeries (index, nil,
err)`; it performs no history or panel write of its own, so the two entry
points are observationally equivalent on every state. -/
theorem updateMetric_equiv_updateTimeSeries (t : TUI) (index : Int) (p : DataPoint) :
    UpdateMetric t index p none = UpdateTimeSeries t index (some { points := [p] }) none ∧
    ∀ e : String, UpdateMetric t index p (some e) = UpdateTimeSeries t index none (some e) := by
  exact ⟨rfl, fun _ => rfl⟩

theorem updateScrollView_histories (t : TUI) : (updateScrollView t).histories = t.histories := by
  simp only [updateScrollView]
  split_ifs <;> rfl

theorem setupUI_histories (t : TUI) (qs : List Query) :
    (setupUI t qs).histories = t.histories := by
  simp only [setupUI, updateScrollView_histories]

/-- C10: the non-`nil` series invariant and its hole.  (1) `NewTUI` gives
every history an allocated empty series; (2) an error update never touches
the stored series pointer, preserving non-`nil`-ness; (3) but the success
path of `UpdateTimeSeries` does not guard against a `nil` series argument:
`update(i, nil, nil)` stores the `nil` pointer, and rendering that panel
then dereferences it (`history.TimeSeries.Points`, a panic, modelled as
`none`); (4) hence the whole `UpdateTimeSeries(i, nil, nil)` call panics
inside its queued draw.  The invariant therefore rests on the precondition
that successful updates pass a non-`nil` series. -/
theorem updateTimeSeries_nil_series_unguarded :
    (∀ qs : List Query, ∀ h ∈ (NewTUI qs).histories,
      h.timeSeries = some { points := [] }) ∧
    (∀ (t : TUI) (i : Nat) (e : String), i < t.histories.length →
      ((applyHistoryWrite t.histories i none (some e)).get? i).map QueryHistory.timeSeries =
        (t.histories.get? i).map QueryHistory.timeSeries) ∧
    (∀ (t : TUI) (i : Nat), i < t.histories.length →
      ((applyHistoryWrite t.histories i none none).get? i).map QueryHistory.timeSeries =
        some none ∧
      renderTimeSeriesGraph
        { t with histories := applyHistoryWrite t.histories i none none } i = none) ∧
    (∀ (t : TUI) (i : Nat), i < t.histories.length → i < t.panels.length →
      UpdateTimeSeries t (i : Int) none none = none) := by
  refine ⟨?_, ?_, ?_, ?_⟩
  · intro qs h hmem
    rw [NewTUI, setupUI_histories] at hmem
    simp only [List.mem_map] at hmem
    obtain ⟨q, _, rfl⟩ := hmem
    rfl
  · intro t i e hidx
    have hget : t.histories.get? i = some (t.histories.get ⟨i, hidx⟩) :=
      List.get?_eq_get hidx
    simp only [applyHistoryWrite, hget]
    rw [List.get?_set_eq_of_lt _ (by simpa using hidx)]
    rfl
  · intro t i hidx
    have hget : t.histories.get? i = some (t.histories.get ⟨i, hidx⟩) :=
      List.get?_eq_get hidx
    constructor
    · simp only [applyHistoryWrite, hget]
      rw [List.get?_set_eq_of_lt _ (by simpa using hidx)]
      rfl
    · simp only [renderTimeSeriesGraph, applyHistoryWrite, hget]
      rw [List.get?_set_eq_of_lt _ (by simpa using hidx)]
  · intro t i hidx hp
    have hneg : ¬ ((i : Int) < 0 ∨ (t.histories.length : Int) ≤ (i : Int)) := by
      push_neg
      exact ⟨Int.natCast_nonneg i, by exact_mod_cast hidx⟩
    have hget : t.histories.get? i = some (t.histories.get ⟨i, hidx⟩) :=
      List.get?_eq_get hidx
    have hp' : ((i : Nat) : Int) < (t.panels.length : Int) := by exact_mod_cast hp
    simp only [UpdateTimeSeries, if_neg hneg, Int.toNat_natCast, applyHistoryWrite, hget,
      if_pos hp', queuedDraw, renderTimeSeriesGraph]
    rw [List.get?_set_eq_of_lt _ (by simpa using hidx)]

/-- Witness for C10: on a freshly constructed one-panel UI the call
`UpdateTimeSeries(0, nil, nil)` panics. -/
theorem updateTimeSeries_nil_series_unguarded_witness :
    (let t : TUI := NewTUI [{ name := "q0", expr := "up" }]
     0 < t.histories.length ∧ 0 < t.panels.length ∧
     UpdateTimeSeries t ((0 : Nat) : Int) none none = none) := by
  refine ⟨by decide, by decide, ?_⟩
  exact updateTimeSeries_nil_series_unguarded.2.2.2 _ 0 (by decide) (by decide)

/-! ## The time-range footer computes the global minimum and maximum -/

/-- The points a history contributes to the footer scan: none when its
series pointer is `nil`, its points otherwise. -/
def storedPoints (h : QueryHistory) : List DataPoint :=
  match h.timeSeries with
  | none => []
  | some ts => ts.points

/-- All timestamps stored across all panels, in scan order. -/
def allStoredTimestamps (t : TUI) : List Int :=
  (t.histories.flatMap storedPoints).map DataPoint.timestamp

theorem perHistory_fold_eq (acc : Option (Int × Int)) (h : QueryHistory) :
    (match h.timeSeries with
      | none => acc
      | some ts =>
        if 0 < ts.points.length then ts.points.foldl timeRangeStep acc else acc) =
    (storedPoints h).foldl timeRangeStep acc := by
  cases hts : h.timeSeries with
  | none => simp [storedPoints, hts]
  | some ts =>
    cases hps : ts.points with
    | nil => simp [storedPoints, hts, hps]
    | cons p ps => simp [storedPoints, hts, hps]

/-- The double loop of `updateTimeRange` folds `timeRangeStep` over the
concatenation of every history's stored points. -/
theorem computeTimeRange_eq_fold (hs : List QueryHistory) :
    computeTimeRange hs = (hs.flatMap storedPoints).foldl timeRangeStep none := by
  suffices h : ∀ acc, hs.foldl
      (fun acc h =>
        match h.timeSeries with
        | none => acc
        | some ts => if 0 < ts.points.length then ts.points.foldl timeRangeStep acc else acc)
      acc = (hs.flatMap storedPoints).foldl timeRangeStep acc from h none
  induction hs with
  | nil => intro acc; rfl
  | cons h hs ih =>
    intro acc
    rw [List.foldl_cons, ih, List.flatMap_cons, List.foldl_append, perHistory_fold_eq]

/-- Folding `timeRangeStep` from a seeded pair yields the minimum and
maximum over the seed and every scanned timestamp. -/
theorem fold_timeRangeStep_minmax (ps : List DataPoint) :
    ∀ e0 l0 : Int, ∃ e l,
      ps.foldl timeRangeStep (some (e0, l0)) = some (e, l) ∧
      (e = e0 ∨ e ∈ ps.map DataPoint.timestamp) ∧
      (l = l0 ∨ l ∈ ps.map DataPoint.timestamp) ∧
      e ≤ e0 ∧ l0 ≤ l ∧
      ∀ x ∈ ps.map DataPoint.timestamp, e ≤ x ∧ x ≤ l := by
  induction ps with
  | nil =>
    intro e0 l0
    exact ⟨e0, l0, rfl, Or.inl rfl, Or.inl rfl, le_refl _, le_refl _, by simp⟩
  | cons p ps ih =>
    intro e0 l0
    have hstep : timeRangeStep (some (e0, l0)) p =
        some ((if p.timestamp < e0 then p.timestamp else e0),
              (if p.timestamp > l0 then p.timestamp else l0)) := rfl
    obtain ⟨e, l, hfold, hem, hlm, hee, hll, hall⟩ :=
      ih (if p.timestamp < e0 then p.timestamp else e0)
         (if p.timestamp > l0 then p.timestamp else l0)
    refine ⟨e, l, ?_, ?_, ?_, ?_, ?_, ?_⟩
    · rw [List.foldl_cons, hstep, hfold]
    · rcases hem with he | he
      · by_cases hc : p.timestamp < e0
        · rw [if_pos hc] at he
          exact Or.inr (by simp [he])
        · rw [if_neg hc] at he
          exact Or.inl he
      · exact Or.inr (by simp [he])
    · rcases hlm with hl | hl
      · by_cases hc : p.timestamp > l0
        · rw [if_pos hc] at hl
          exact Or.inr (by simp [hl])
        · rw [if_neg hc] at hl
          exact Or.inl hl
      · exact Or.inr (by simp [hl])
    · split_ifs at hee <;> omega
    · split_ifs at hll <;> omega
    · intro x hx
      simp only [List.map_cons, List.mem_cons] at hx
      rcases hx with rfl | hx
      · constructor
        · split_ifs at hee <;> omega
        · split_ifs at hll <;> omega
      · exact hall x hx

/-- C5: on every update the footer is recomputed from all panels' stored
points: when no panel has any stored point it shows the waiting
placeholder; otherwise it shows `range e l` where `e` and `l` are stored
timestamps bounding every stored timestamp — exactly the global minimum
and maximum over the union of the stored series (so for panels `{t1 < t2}`
and `{t3 < t4}` with `t1` globally earliest and `t4` globally latest, the
range is exactly `[t1, t4]`). -/
theorem updateTimeRange_global_minmax (t : TUI) :
    (allStoredTimestamps t = [] →
      (updateTimeRange t).timeRange = TimeRangeDisplay.waiting) ∧
    (allStoredTimestamps t ≠ [] →
      ∃ e l, (updateTimeRange t).timeRange = TimeRangeDisplay.range e l ∧
        e ∈ allStoredTimestamps t ∧ l ∈ allStoredTimestamps t ∧
        ∀ x ∈ allStoredTimestamps t, e ≤ x ∧ x ≤ l) := by
  have hmap : allStoredTimestamps t = (t.histories.flatMap storedPoints).map DataPoint.timestamp := rfl
  cases hps : t.histories.flatMap storedPoints with
  | nil =>
    constructor
    · intro _
      simp only [updateTimeRange, computeTimeRange_eq_fold, hps, List.foldl_nil]
    · intro hne
      exact absurd (by rw [hmap, hps]; rfl) hne
  | cons p ps =>
    constructor
    · intro hempty
      rw [hmap, hps] at hempty
      simp at hempty
    · intro _
      obtain ⟨e, l, hfold, hem, hlm, hee, hll, hall⟩ :=
        fold_timeRangeStep_minmax ps p.timestamp p.timestamp
      refine ⟨e, l, ?_, ?_, ?_, ?_⟩
      · simp only [updateTimeRange, computeTimeRange_eq_fold, hps, List.foldl_cons]
        have hseed : timeRangeStep none p = some (p.timestamp, p.timestamp) := rfl
        rw [hseed, hfold]
      · rw [hmap, hps, List.map_cons]
        rcases hem with he | he
        · simp [he]
        · exact List.mem_cons_of_mem _ he
      · rw [hmap, hps, List.map_cons]
        rcases hlm with hl | hl
        · simp [hl]
        · exact List.mem_cons_of_mem _ hl
      · intro x hx
        rw [hmap, hps, List.map_cons, List.mem_cons] at hx
        rcases hx with rfl | hx
        · exact ⟨hee, hll⟩
        · exact hall x hx

/-- Witness for C5: two panels with timestamps `{10 < 20}` and `{5 < 15}`;
the footer's bounds are stored timestamps bounding all four, i.e. the range
is exactly `[5, 20]`. -/
theorem updateTimeRange_global_minmax_witness :
    (let t : TUI :=
      { panels := [PanelContent.initializing, PanelContent.initializing]
        timeRange := TimeRangeDisplay.waiting
        focusIndex := 0
        scrollOffset := 0
        visiblePanels := 2
        histories :=
          [{ name := "a"
             timeSeries := some { points :=
               [{ timestamp := 10, value := 1.0 }, { timestamp := 20, value := 2.0 }] }
             lastError := none },
           { name := "b"
             timeSeries := some { points :=
               [{ timestamp := 5, value := 3.0 }, { timestamp := 15, value := 4.0 }] }
             lastError := none }] }
     allStoredTimestamps t ≠ [] ∧
     ∃ e l, (updateTimeRange t).timeRange = TimeRangeDisplay.range e l ∧
       e ∈ allStoredTimestamps t ∧ l ∈ allStoredTimestamps t ∧
       ∀ x ∈ allStoredTimestamps t, e ≤ x ∧ x ≤ l) := by
  refine ⟨?_, ?_⟩
  · intro h
    simp [allStoredTimestamps, storedPoints, List.flatMap] at h
  · exact (updateTimeRange_global_minmax _).2 (by
      intro h
      simp [allStoredTimestamps, storedPoints, List.flatMap] at h)

/-! ## Backend selection is a startup-time contract -/

/-- The identifier strings `createBackend` dispatches on (the empty string
is the documented alias that configuration resolution defaults to
`"prometheus"` before the factory ever runs). -/
def supportedBackends : List String := ["prometheus", "", "influxdb", "influxdb1", "mock"]

/-- C8: the factory maps an identifier to a backend constructor exactly for
the fixed supported identifier set — `"prometheus"` (with `""` resolved to
it), `"influxdb"`, `"influxdb1"`, `"mock"` — and for any identifier outside
that set it is the `unsupported backend` error; moreover the whole startup
pipeline (`LoadConfig` validation, backend construction, connect, then UI
construction) rejects such a configuration with an error before the backend
is built, before any query could run and before any UI is constructed,
whatever the client constructors and the connect probe would do. -/
theorem createBackend_exact_dispatch (cfg : Config) :
    (∀ ctors : Constructors,
      (cfg.backend = "prometheus" ∨ cfg.backend = "" →
        createBackend ctors cfg = ctors.promNew cfg.prometheus) ∧
      (cfg.backend = "influxdb" → createBackend ctors cfg = ctors.influxNew cfg.influxdb) ∧
      (cfg.backend = "influxdb1" → createBackend ctors cfg = ctors.influx1New cfg.influxdb1) ∧
      (cfg.backend = "mock" → createBackend ctors cfg = Except.ok (ctors.mockNew cfg.mock)) ∧
      (cfg.backend ∉ supportedBackends →
        createBackend ctors cfg = Except.error ("unsupported backend: " ++ cfg.backend ++
          " (supported: prometheus, influxdb, influxdb1, mock)"))) ∧
    (cfg.backend ∉ supportedBackends →
      ∀ (ctors : Constructors) (connect : BackendInstance → Except String Unit),
        appNew ctors connect cfg = Except.error ("failed to load config: " ++
          ("unsupported backend: " ++ cfg.backend ++
            " (supported: prometheus, influxdb, influxdb1, mock)"))) := by
  constructor
  · intro ctors
    refine ⟨?_, ?_, ?_, ?_, ?_⟩
    · intro h
      simp only [createBackend, if_pos h]
    · intro h
      have h1 : ¬ (cfg.backend = "prometheus" ∨ cfg.backend = "") := by simp [h]
      simp only [createBackend, if_neg h1, if_pos h]
    · intro h
      have h1 : ¬ (cfg.backend = "prometheus" ∨ cfg.backend = "") := by simp [h]
      have h2 : cfg.backend ≠ "influxdb" := by simp [h]
      simp only [createBackend, if_neg h1, if_neg h2, if_pos h]
    · intro h
      have h1 : ¬ (cfg.backend = "prometheus" ∨ cfg.backend = "") := by simp [h]
      have h2 : cfg.backend ≠ "influxdb" := by simp [h]
      have h3 : cfg.backend ≠ "influxdb1" := by simp [h]
      simp only [createBackend, if_neg h1, if_neg h2, if_neg h3, if_pos h]
    · intro h
      simp only [supportedBackends, List.mem_cons, List.not_mem_nil, or_false, not_or] at h
      obtain ⟨hp, he, hi, hi1, hm⟩ := h
      have h1 : ¬ (cfg.backend = "prometheus" ∨ cfg.backend = "") := by simp [hp, he]
      simp only [createBackend, if_neg h1, if_neg hi, if_neg hi1, if_neg hm]
  · intro h ctors connect
    simp only [supportedBackends, List.mem_cons, List.not_mem_nil, or_false, not_or] at h
    obtain ⟨hp, he, hi, hi1, hm⟩ := h
    have hval : validateConfig cfg = Except.error ("unsupported backend: " ++ cfg.backend ++
        " (supported: prometheus, influxdb, influxdb1, mock)") := by
      simp only [validateConfig, if_neg he, if_neg hp, if_neg hi, if_neg hi1, if_neg hm]
    simp only [appNew, hval]

/-- Witness for C8: the identifier `graphite` is rejected: the factory
returns the `unsupported backend` error and startup fails before any UI
exists, independently of the (here: always-succeeding) client constructors
and connect probe. -/
theorem createBackend_exact_dispatch_witness :
    (let cfg : Config :=
      { backend := "graphite"
        prometheus := { url := "http://localhost:9090" }
        influxdb := { url := "", token := "", org := "", bucket := "" }
        influxdb1 := { url := "", username := "", password := "", database := "" }
        mock := { seed := 0 }
        queries := [{ name := "q", expr := "up" }] }
     let ctors : Constructors :=
      { promNew := fun c => Except.ok (BackendInstance.prom c)
        influxNew := fun c => Except.ok (BackendInstance.influxdb c)
        influx1New := fun c => Except.ok (BackendInstance.influxdb1 c)
        mockNew := fun c => BackendInstance.mock c }
     cfg.backend ∉ supportedBackends ∧
     appNew ctors (fun _ => Except.ok ()) cfg = Except.error ("failed to load config: " ++
       ("unsupported backend: " ++ cfg.backend ++
         " (supported: prometheus, influxdb, influxdb1, mock)"))) := by
  refine ⟨by decide, ?_⟩
  exact (createBackend_exact_dispatch _).2 (by decide) _ _

/-! ## The shutdown race -/

/-- C2 fails on the code: from the post-`Start` state with one refresh
goroutine in flight, the interleaving «`Stop` cancels, `updateLoop` exits
releasing the only wait-group token, `wg.Wait()` returns, `backend.Close()`
runs» is reachable while the per-query refresh goroutine — which
`updateMetrics` spawned without registering it in the wait group — is still
running.  So `Backend.Close` can run with a refresh task in flight,
contradicting the claimed drain-before-close ordering. -/
theorem stop_can_close_backend_with_refresh_in_flight :
    ∃ s : AppState, AppReachable startedState s ∧
      s.backendClosed = true ∧ 0 < s.refreshInFlight := by
  have r1 := AppReachable.tail (AppReachable.refl startedState) (AppStep.cancelAndStopUI startedState)
  have r2 := AppReachable.tail r1 (AppStep.updateLoopExit _ rfl rfl)
  have r3 := AppReachable.tail r2 (AppStep.closeBackend _ rfl rfl)
  exact ⟨_, r3, rfl, Nat.zero_lt_one⟩

end Plot
